import Mathlib

/-!
# Verification of the ProcGraf-2025 procedural track-generation core

Shallow embedding of the algorithmic core of the repository (the B-spline
curve evaluator `generateBSplinePoints`, the ribbon-mesh extruder
`generateTrackMesh`, the animation-point exporter `exportAnimationPoints`,
the vehicle-placement block and the fixed-step animation accumulator of
`main`), together with theorems settling the specification claims.

Modelling conventions:
* `glm::vec3` becomes `V3 α` (a record of three scalars).  Scalars are
  modelled exactly (`ℚ` where the computation is rational, `ℝ` where
  `atan2`/`cos`/`sin` are involved); binary32 values are rationals.  Where a
  result visibly depends on float rounding — the curve evaluator's
  accumulation `t += step` — the round-to-nearest-even binary32 rounding is
  modelled explicitly (`fl32`).
* C++ `std::vector` becomes `List`; `push_back` accumulation becomes either
  `List` construction or a `foldl` that appends, mirroring the source loop.
* Non-terminating code paths are modelled by an `Option` result (`none`).
-/

set_option maxHeartbeats 1000000

/-- A 3-component vector, the embedding of `glm::vec3` (fields `x`, `y`, `z`). -/
structure V3 (α : Type) where
  x : α
  y : α
  z : α
  deriving DecidableEq

/-- A 4-component vector, the embedding of `glm::vec4`. -/
structure V4 (α : Type) where
  x : α
  y : α
  z : α
  w : α
  deriving DecidableEq

namespace V3

/-- Componentwise addition (`glm::vec3` operator `+`). -/
def add {α : Type} [Add α] (a b : V3 α) : V3 α := ⟨a.x + b.x, a.y + b.y, a.z + b.z⟩

/-- Componentwise subtraction (`glm::vec3` operator `-`). -/
def sub {α : Type} [Sub α] (a b : V3 α) : V3 α := ⟨a.x - b.x, a.y - b.y, a.z - b.z⟩

/-- Scalar multiplication `c * v`. -/
def smul {α : Type} [Mul α] (c : α) (a : V3 α) : V3 α := ⟨c * a.x, c * a.y, c * a.z⟩

instance {α : Type} [Add α] : Add (V3 α) := ⟨add⟩
instance {α : Type} [Sub α] : Sub (V3 α) := ⟨sub⟩

/-- The zero vector (also used as the default element for `List.getD`). -/
def zero (α : Type) [OfNat α 0] : V3 α := ⟨0, 0, 0⟩

end V3

-- ===========================================================================
-- CurveEvaluator: `generateBSplinePoints` (src/unnamed/part_001, 1417-1446)
-- ===========================================================================

/-- The four columns of the `glm::mat4` literal `BSplineMatrix` from the source.
`glm::mat4(a₀,…,a₃, b₀,…,b₃, …)` is COLUMN-major: the first four scalars form
column 0.  So column `c` of the C++ matrix is row `c` of the matrix displayed
in the spec. -/
def BSplineMatrixCol : Fin 4 → V4 ℚ
  | 0 => ⟨-1/6, 3/6, -3/6, 1/6⟩
  | 1 => ⟨3/6, -6/6, 3/6, 0⟩
  | 2 => ⟨-3/6, 0, 3/6, 0⟩
  | 3 => ⟨1/6, 4/6, 1/6, 0⟩

/-- `glm` matrix-vector product `M * v` for a 4x4 matrix given by its columns:
the linear combination of the columns weighted by the components of `v`. -/
def mat4MulVec4 (col : Fin 4 → V4 ℚ) (v : V4 ℚ) : V4 ℚ :=
  ⟨(col 0).x * v.x + (col 1).x * v.y + (col 2).x * v.z + (col 3).x * v.w,
   (col 0).y * v.x + (col 1).y * v.y + (col 2).y * v.z + (col 3).y * v.w,
   (col 0).z * v.x + (col 1).z * v.y + (col 2).z * v.z + (col 3).z * v.w,
   (col 0).w * v.x + (col 1).w * v.y + (col 2).w * v.z + (col 3).w * v.w⟩

/-- `glm` product `G * u` of a `mat4x3` (columns `c0 c1 c2 c3`, here the four
control points of the current window) with a `vec4`. -/
def mat4x3MulVec4 (c0 c1 c2 c3 : V3 ℚ) (u : V4 ℚ) : V3 ℚ :=
  ⟨c0.x * u.x + c1.x * u.y + c2.x * u.z + c3.x * u.w,
   c0.y * u.x + c1.y * u.y + c2.y * u.z + c3.y * u.w,
   c0.z * u.x + c1.z * u.y + c2.z * u.z + c3.z * u.w⟩

/-- One sampled curve point: `G * BSplineMatrix * T` with
`T = (t³, t², t, 1)` and `G` the window `controlPoints[i..i+3]` as columns
(source lines 1435-1442). -/
def curvePoint (controlPoints : List (V3 ℚ)) (i : ℕ) (t : ℚ) : V3 ℚ :=
  mat4x3MulVec4 (controlPoints.getD i (V3.zero ℚ))
    (controlPoints.getD (i + 1) (V3.zero ℚ))
    (controlPoints.getD (i + 2) (V3.zero ℚ))
    (controlPoints.getD (i + 3) (V3.zero ℚ))
    (mat4MulVec4 BSplineMatrixCol ⟨t * t * t, t * t, t, 1⟩)

-- ===========================================================================
-- Binary32 rounding: the float accumulation of the sample loop
-- ===========================================================================

/-- Round half to even to an integer. -/
def rne (x : ℚ) : ℤ :=
  if x - ⌊x⌋ < 1/2 then ⌊x⌋
  else if 1/2 < x - ⌊x⌋ then ⌊x⌋ + 1
  else if ⌊x⌋ % 2 = 0 then ⌊x⌋ else ⌊x⌋ + 1

/-- Round a rational to the nearest binary32-representable value (24-bit
significand, round to nearest, ties to even), with unbounded exponent range —
no overflow, infinity or subnormal handling, since every value arising in
this development lies well inside the normal range. -/
def fl32 (x : ℚ) : ℚ :=
  if x = 0 then 0
  else if 0 < x then
    (rne (x / 2 ^ (Int.log 2 x - 23)) : ℚ) * 2 ^ (Int.log 2 x - 23)
  else
    -((rne (-x / 2 ^ (Int.log 2 (-x) - 23)) : ℚ) * 2 ^ (Int.log 2 (-x) - 23))

/-- The samples taken by the source's loop
`for (float t = 0.0f; t <= 1.0f; t += step)` (source line 1434): binary32
accumulation `t ← fl32 (t + step)` guarded by `t ≤ 1`.  `fuel` bounds the
iteration count; `generateBSplinePoints` passes `8·P + 8`, which never cuts a
terminating run short: an iteration that changes `t` advances it by at least
`step/2` (when the local `fl32` grid spacing `u` is at most `step` the
rounding error is at most `u/2 ≤ step/2`; when `u > step` any change is a
whole grid step `> step`), so a terminating run makes at most `2/step + 2 ≤
8·P + 8` iterations.  A run in which `t + step` rounds back to `t` never
terminates in the source (possible only for `pointsPerSegment` around `2^25`
and beyond, far outside the program's own usage, e.g. `PointsPerSegment 100`
in the generated scene); this model truncates such a run at the fuel bound. -/
def tListFCore (fuel : ℕ) (step t : ℚ) : List ℚ :=
  match fuel with
  | 0 => []
  | fuel + 1 =>
    if 0 < step ∧ t ≤ 1 then t :: tListFCore fuel step (fl32 (t + step)) else []

/-- Embedding of `generateBSplinePoints` (source lines 1417-1446).

* Fewer than 4 control points: return the empty list (source line 1419).
* `pointsPerSegment > 0`: `step = fl32 (1/pointsPerSegment)` models the float
  division `1.0f / pointsPerSegment` (source line 1430), and each window
  `i = 0 … size-4` contributes the samples `t = 0, fl32(0+step),
  fl32(fl32(0+step)+step), …` while `t ≤ 1`, appended in increasing `t`,
  increasing window order — the float accumulation, not the exact multiples
  of `1/P`.
* `pointsPerSegment = 0`: there is no validation in the source; the IEEE
  float division `1.0f / 0` yields `+∞`, so the sample loop runs exactly once
  per window (`t = 0 ≤ 1`, then `t = +∞ > 1`).  We inline that single-sample
  behaviour, since our rationals have no infinity.
* `pointsPerSegment < 0`: `step < 0`, so `t` never exceeds `1` and the loop
  `for (t = 0; t <= 1; t += step)` never terminates.  Modelled as `none`. -/
def generateBSplinePoints (controlPoints : List (V3 ℚ)) (pointsPerSegment : ℤ) :
    Option (List (V3 ℚ)) :=
  if controlPoints.length < 4 then some [] else
  if pointsPerSegment < 0 then none else
  if pointsPerSegment = 0 then
    some ((List.range (controlPoints.length - 3)).flatMap
      (fun i => [curvePoint controlPoints i 0]))
  else
    some ((List.range (controlPoints.length - 3)).flatMap
      (fun i => (tListFCore (8 * pointsPerSegment.toNat + 8)
        (fl32 (1 / (pointsPerSegment : ℚ))) 0).map
        (curvePoint controlPoints i)))

-- ===========================================================================
-- Evaluation lemmas for the rounding model and the t-loop
-- ===========================================================================

lemma rne_intCast (n : ℤ) : rne (n : ℚ) = n := by
  simp [rne]

lemma rne_add_of_lt_half (n : ℤ) (r : ℚ) (h0 : 0 ≤ r) (h : r < 1/2) :
    rne ((n : ℚ) + r) = n := by
  have hf : ⌊(n : ℚ) + r⌋ = n := by
    rw [Int.floor_int_add, Int.floor_eq_zero_iff.mpr ⟨h0, by linarith⟩, add_zero]
  rw [rne, hf, if_pos (by push_cast; linarith)]

lemma rne_add_of_half_lt (n : ℤ) (r : ℚ) (h : 1/2 < r) (h1 : r < 1) :
    rne ((n : ℚ) + r) = n + 1 := by
  have hf : ⌊(n : ℚ) + r⌋ = n := by
    rw [Int.floor_int_add, Int.floor_eq_zero_iff.mpr ⟨by linarith, h1⟩, add_zero]
  rw [rne, hf, if_neg (by push_cast; linarith), if_pos (by push_cast; linarith)]

lemma rne_pos {y : ℚ} (hy : 1 ≤ y) : 0 < rne y := by
  have hfl : (1 : ℤ) ≤ ⌊y⌋ := by
    rwa [Int.le_floor, Int.cast_one]
  rw [rne]
  split_ifs <;> omega

/-- `Int.log 2` is pinned by a bracketing pair of powers. -/
lemma log2_pin {x : ℚ} {L : ℤ} (hx : 0 < x) (h1 : (2:ℚ)^L ≤ x)
    (h2 : x < (2:ℚ)^(L+1)) : Int.log 2 x = L := by
  have ha := (Int.zpow_le_iff_le_log (b := 2) (by norm_num) hx).mp
    (by exact_mod_cast h1)
  have hb := (Int.lt_zpow_iff_log_lt (b := 2) (by norm_num) hx).mp
    (by exact_mod_cast h2)
  omega

/-- Evaluate `fl32` at a value whose binade is known: if `2^23 ≤ x·2^k < 2^24`
then `fl32 x = rne (x·2^k) / 2^k`. -/
lemma fl32_eval_nat (x : ℚ) (k : ℕ) (m : ℤ) (hx : 0 < x)
    (h1 : (2:ℚ)^23 ≤ x * 2^k) (h2 : x * 2^k < 2^24)
    (hm : rne (x * 2^k) = m) :
    fl32 x = (m : ℚ) / 2^k := by
  have h2k : (0:ℚ) < 2^k := by positivity
  have hL : Int.log 2 x = 23 - (k : ℤ) := by
    apply log2_pin hx
    · rw [zpow_sub₀ (by norm_num : (2:ℚ) ≠ 0), zpow_natCast, div_le_iff₀ h2k]
      calc (2:ℚ)^(23:ℤ) = 2^(23:ℕ) := by norm_num
        _ ≤ x * 2^k := h1
    · rw [show (23 - (k:ℤ) + 1) = 24 - (k:ℤ) by ring,
        zpow_sub₀ (by norm_num : (2:ℚ) ≠ 0), zpow_natCast, lt_div_iff₀ h2k]
      calc x * 2^k < 2^(24:ℕ) := h2
        _ = (2:ℚ)^(24:ℤ) := by norm_num
  rw [fl32, if_neg hx.ne', if_pos hx, hL,
    show (23 - (k:ℤ)) - 23 = -(k:ℤ) by ring, zpow_neg, zpow_natCast,
    div_eq_mul_inv, inv_inv, hm, ← div_eq_mul_inv]

/-- A value that is exactly representable (an integer significand in the
normal binade) is left unchanged by `fl32`. -/
lemma fl32_exact (x : ℚ) (k : ℕ) (n : ℤ) (hx : 0 < x)
    (h1 : (2:ℚ)^23 ≤ x * 2^k) (h2 : x * 2^k < 2^24)
    (hn : x * 2^k = (n:ℚ)) : fl32 x = x := by
  have h := fl32_eval_nat x k n hx h1 h2 (by rw [hn]; exact rne_intCast n)
  rw [h, ← hn, mul_div_cancel_right₀ x (by positivity : ((2:ℚ)^k) ≠ 0)]

/-- Rounding keeps positive values positive. -/
lemma fl32_pos {x : ℚ} (hx : 0 < x) : 0 < fl32 x := by
  have hL := Int.zpow_log_le_self (b := 2) (by norm_num) hx
  set L := Int.log 2 x with hLdef
  have h2 : (0:ℚ) < 2 ^ (L - 23) := by positivity
  have hone : (1:ℚ) ≤ x / 2 ^ (L - 23) := by
    rw [le_div_iff₀ h2, one_mul]
    calc (2:ℚ) ^ (L - 23) ≤ 2 ^ L := by
          apply zpow_le_zpow_right₀ (by norm_num)
          omega
      _ ≤ x := hL
  rw [fl32, if_neg hx.ne', if_pos hx]
  have := rne_pos hone
  positivity

lemma tListFCore_succ (fuel : ℕ) (step t : ℚ) :
    tListFCore (fuel + 1) step t =
      if 0 < step ∧ t ≤ 1 then t :: tListFCore fuel step (fl32 (t + step))
      else [] := rfl

lemma tListFCore_cons (fuel : ℕ) (step t : ℚ) (h : 0 < step ∧ t ≤ 1) :
    tListFCore (fuel + 1) step t = t :: tListFCore fuel step (fl32 (t + step)) := by
  rw [tListFCore_succ, if_pos h]

lemma tListFCore_nil (fuel : ℕ) (step t : ℚ) (h : ¬ (0 < step ∧ t ≤ 1)) :
    tListFCore (fuel + 1) step t = [] := by
  rw [tListFCore_succ, if_neg h]

/-- The float value of `1.0f / 10`: `fl(0.1) = 13421773·2⁻²⁷ > 1/10`. -/
lemma fl32_tenth : fl32 (1 / 10) = 13421773 / 2 ^ 27 := by
  apply fl32_eval_nat _ 27 _ (by norm_num) (by norm_num) (by norm_num)
  rw [show (1:ℚ)/10 * 2^27 = ((13421772 : ℤ) : ℚ) + 4/5 by norm_num]
  rw [rne_add_of_half_lt 13421772 (4/5) (by norm_num) (by norm_num)]
  norm_num

/-- `1/4` is exactly representable. -/
lemma fl32_quarter : fl32 (1 / 4) = 1 / 4 :=
  fl32_exact _ 25 8388608 (by norm_num) (by norm_num) (by norm_num) (by norm_num)

/-- With `step = 1/4` (exactly representable) every accumulated sum is exact,
so the loop samples `0, 1/4, 1/2, 3/4, 1` — five values, the last at `t = 1`. -/
lemma tListF_four :
    tListFCore 40 (1/4 : ℚ) 0 = [0, 1/4, 1/2, 3/4, 1] := by
  have e1 : fl32 ((0:ℚ) + 1/4) = 1/4 := by
    rw [show (0:ℚ) + 1/4 = 1/4 by norm_num]
    exact fl32_quarter
  have e2 : fl32 ((1:ℚ)/4 + 1/4) = 1/2 := by
    rw [show (1:ℚ)/4 + 1/4 = 1/2 by norm_num]
    exact fl32_exact _ 24 8388608 (by norm_num) (by norm_num) (by norm_num) (by norm_num)
  have e3 : fl32 ((1:ℚ)/2 + 1/4) = 3/4 := by
    rw [show (1:ℚ)/2 + 1/4 = 3/4 by norm_num]
    exact fl32_exact _ 24 12582912 (by norm_num) (by norm_num) (by norm_num) (by norm_num)
  have e4 : fl32 ((3:ℚ)/4 + 1/4) = 1 := by
    rw [show (3:ℚ)/4 + 1/4 = 1 by norm_num]
    exact fl32_exact _ 23 8388608 (by norm_num) (by norm_num) (by norm_num) (by norm_num)
  have e5 : fl32 ((1:ℚ) + 1/4) = 5/4 := by
    rw [show (1:ℚ) + 1/4 = 5/4 by norm_num]
    exact fl32_exact _ 23 10485760 (by norm_num) (by norm_num) (by norm_num) (by norm_num)
  rw [show (40:ℕ) = 39 + 1 from rfl, tListFCore_cons _ _ _ ⟨by norm_num, by norm_num⟩, e1]
  rw [show (39:ℕ) = 38 + 1 from rfl, tListFCore_cons _ _ _ ⟨by norm_num, by norm_num⟩, e2]
  rw [show (38:ℕ) = 37 + 1 from rfl, tListFCore_cons _ _ _ ⟨by norm_num, by norm_num⟩, e3]
  rw [show (37:ℕ) = 36 + 1 from rfl, tListFCore_cons _ _ _ ⟨by norm_num, by norm_num⟩, e4]
  rw [show (36:ℕ) = 35 + 1 from rfl, tListFCore_cons _ _ _ ⟨by norm_num, by norm_num⟩, e5]
  rw [show (35:ℕ) = 34 + 1 from rfl, tListFCore_nil _ _ _ (by norm_num)]

/-- With `step = fl(0.1)` the ten rounded partial sums are the classic
binary32 values `0.1f, 0.2f, 0.30000001f, …, 0.90000010f`; the tenth addition
yields `8388609·2⁻²³ = 1.00000012f > 1`, so the loop emits exactly TEN
samples and none at `t = 1`. -/
lemma tListF_ten :
    tListFCore 88 (13421773 / 2 ^ 27 : ℚ) 0 =
      [0, 13421773/2^27, 13421773/2^26, 10066330/2^25, 13421773/2^25,
       8388608/2^24, 10066330/2^24, 11744052/2^24, 13421774/2^24,
       15099496/2^24] := by
  have e1 : fl32 ((0:ℚ) + 13421773/2^27) = 13421773/2^27 := by
    rw [show (0:ℚ) + 13421773/2^27 = 13421773/2^27 by norm_num]
    exact fl32_exact _ 27 13421773 (by norm_num) (by norm_num) (by norm_num) (by norm_num)
  have e2 : fl32 ((13421773:ℚ)/2^27 + 13421773/2^27) = 13421773/2^26 := by
    rw [show (13421773:ℚ)/2^27 + 13421773/2^27 = 13421773/2^26 by norm_num]
    exact fl32_exact _ 26 13421773 (by norm_num) (by norm_num) (by norm_num) (by norm_num)
  have e3 : fl32 ((13421773:ℚ)/2^26 + 13421773/2^27) = 10066330/2^25 := by
    rw [show (13421773:ℚ)/2^26 + 13421773/2^27 = 40265319/2^27 by norm_num]
    apply fl32_eval_nat _ 25 _ (by norm_num) (by norm_num) (by norm_num)
    rw [show (40265319:ℚ)/2^27 * 2^25 = ((10066329 : ℤ) : ℚ) + 3/4 by norm_num]
    rw [rne_add_of_half_lt 10066329 (3/4) (by norm_num) (by norm_num)]
    norm_num
  have e4 : fl32 ((10066330:ℚ)/2^25 + 13421773/2^27) = 13421773/2^25 := by
    rw [show (10066330:ℚ)/2^25 + 13421773/2^27 = 53687093/2^27 by norm_num]
    apply fl32_eval_nat _ 25 _ (by norm_num) (by norm_num) (by norm_num)
    rw [show (53687093:ℚ)/2^27 * 2^25 = ((13421773 : ℤ) : ℚ) + 1/4 by norm_num]
    exact rne_add_of_lt_half 13421773 (1/4) (by norm_num) (by norm_num)
  have e5 : fl32 ((13421773:ℚ)/2^25 + 13421773/2^27) = 8388608/2^24 := by
    rw [show (13421773:ℚ)/2^25 + 13421773/2^27 = 67108865/2^27 by norm_num]
    apply fl32_eval_nat _ 24 _ (by norm_num) (by norm_num) (by norm_num)
    rw [show (67108865:ℚ)/2^27 * 2^24 = ((8388608 : ℤ) : ℚ) + 1/8 by norm_num]
    exact rne_add_of_lt_half 8388608 (1/8) (by norm_num) (by norm_num)
  have e6 : fl32 ((8388608:ℚ)/2^24 + 13421773/2^27) = 10066330/2^24 := by
    rw [show (8388608:ℚ)/2^24 + 13421773/2^27 = 80530637/2^27 by norm_num]
    apply fl32_eval_nat _ 24 _ (by norm_num) (by norm_num) (by norm_num)
    rw [show (80530637:ℚ)/2^27 * 2^24 = ((10066329 : ℤ) : ℚ) + 5/8 by norm_num]
    rw [rne_add_of_half_lt 10066329 (5/8) (by norm_num) (by norm_num)]
    norm_num
  have e7 : fl32 ((10066330:ℚ)/2^24 + 13421773/2^27) = 11744052/2^24 := by
    rw [show (10066330:ℚ)/2^24 + 13421773/2^27 = 93952413/2^27 by norm_num]
    apply fl32_eval_nat _ 24 _ (by norm_num) (by norm_num) (by norm_num)
    rw [show (93952413:ℚ)/2^27 * 2^24 = ((11744051 : ℤ) : ℚ) + 5/8 by norm_num]
    rw [rne_add_of_half_lt 11744051 (5/8) (by norm_num) (by norm_num)]
    norm_num
  have e8 : fl32 ((11744052:ℚ)/2^24 + 13421773/2^27) = 13421774/2^24 := by
    rw [show (11744052:ℚ)/2^24 + 13421773/2^27 = 107374189/2^27 by norm_num]
    apply fl32_eval_nat _ 24 _ (by norm_num) (by norm_num) (by norm_num)
    rw [show (107374189:ℚ)/2^27 * 2^24 = ((13421773 : ℤ) : ℚ) + 5/8 by norm_num]
    rw [rne_add_of_half_lt 13421773 (5/8) (by norm_num) (by norm_num)]
    norm_num
  have e9 : fl32 ((13421774:ℚ)/2^24 + 13421773/2^27) = 15099496/2^24 := by
    rw [show (13421774:ℚ)/2^24 + 13421773/2^27 = 120795965/2^27 by norm_num]
    apply fl32_eval_nat _ 24 _ (by norm_num) (by norm_num) (by norm_num)
    rw [show (120795965:ℚ)/2^27 * 2^24 = ((15099495 : ℤ) : ℚ) + 5/8 by norm_num]
    rw [rne_add_of_half_lt 15099495 (5/8) (by norm_num) (by norm_num)]
    norm_num
  have e10 : fl32 ((15099496:ℚ)/2^24 + 13421773/2^27) = 8388609/2^23 := by
    rw [show (15099496:ℚ)/2^24 + 13421773/2^27 = 134217741/2^27 by norm_num]
    apply fl32_eval_nat _ 23 _ (by norm_num) (by norm_num) (by norm_num)
    rw [show (134217741:ℚ)/2^27 * 2^23 = ((8388608 : ℤ) : ℚ) + 13/16 by norm_num]
    rw [rne_add_of_half_lt 8388608 (13/16) (by norm_num) (by norm_num)]
    norm_num
  rw [show (88:ℕ) = 87 + 1 from rfl, tListFCore_cons _ _ _ ⟨by norm_num, by norm_num⟩, e1]
  rw [show (87:ℕ) = 86 + 1 from rfl, tListFCore_cons _ _ _ ⟨by norm_num, by norm_num⟩, e2]
  rw [show (86:ℕ) = 85 + 1 from rfl, tListFCore_cons _ _ _ ⟨by norm_num, by norm_num⟩, e3]
  rw [show (85:ℕ) = 84 + 1 from rfl, tListFCore_cons _ _ _ ⟨by norm_num, by norm_num⟩, e4]
  rw [show (84:ℕ) = 83 + 1 from rfl, tListFCore_cons _ _ _ ⟨by norm_num, by norm_num⟩, e5]
  rw [show (83:ℕ) = 82 + 1 from rfl, tListFCore_cons _ _ _ ⟨by norm_num, by norm_num⟩, e6]
  rw [show (82:ℕ) = 81 + 1 from rfl, tListFCore_cons _ _ _ ⟨by norm_num, by norm_num⟩, e7]
  rw [show (81:ℕ) = 80 + 1 from rfl, tListFCore_cons _ _ _ ⟨by norm_num, by norm_num⟩, e8]
  rw [show (80:ℕ) = 79 + 1 from rfl, tListFCore_cons _ _ _ ⟨by norm_num, by norm_num⟩, e9]
  rw [show (79:ℕ) = 78 + 1 from rfl, tListFCore_cons _ _ _ ⟨by norm_num, by norm_num⟩, e10]
  rw [show (78:ℕ) = 77 + 1 from rfl, tListFCore_nil _ _ _ (by norm_num)]

/-- Length of a `flatMap` whose chunks all have the same length. -/
lemma flatMap_length_const {α β : Type} (l : List β) (f : β → List α) (c : ℕ)
    (h : ∀ b, (f b).length = c) : (l.flatMap f).length = l.length * c := by
  induction l with
  | nil => simp
  | cons a l ihl =>
    simp [List.flatMap_cons, ihl, h a]
    ring

@[simp] lemma V3.add_def {α : Type} [Add α] (a b : V3 α) :
    a + b = ⟨a.x + b.x, a.y + b.y, a.z + b.z⟩ := rfl

@[simp] lemma V3.sub_def {α : Type} [Sub α] (a b : V3 α) :
    a - b = ⟨a.x - b.x, a.y - b.y, a.z - b.z⟩ := rfl

/-- The control points of the spec's evaluation scenario. -/
def scenarioControlPoints : List (V3 ℚ) :=
  [⟨0, 0, 0⟩, ⟨1, 0, 0⟩, ⟨2, 0, 0⟩, ⟨3, 0, 0⟩, ⟨2, 1, 0⟩, ⟨1, 1, 0⟩]

/-- A concrete 4-control-point input (one evaluation window), used to probe
`pointsPerSegment = 10` and `pointsPerSegment ≤ 0`. -/
def quadControlPoints : List (V3 ℚ) := [⟨0, 0, 0⟩, ⟨6, 0, 0⟩, ⟨0, 6, 0⟩, ⟨0, 0, 6⟩]

-- ===========================================================================
-- Claim C3
-- ===========================================================================

/-- **C3 counterexample**: the claim's count `(k-3)*(P+1)` fails at 4 control
points with `pointsPerSegment = 10`.  Summing the rounded float step
`fl(1/10)` overshoots `1.0f` at the tenth addition, so the single window
yields 10 samples (none at `t = 1`) and the program returns 10 points, not
`(4-3)*(10+1) = 11`. -/
theorem C3_counterexample :
    ∃ l, generateBSplinePoints quadControlPoints 10 = some l ∧
      l.length = 10 ∧
      l.length ≠ (quadControlPoints.length - 3) * (10 + 1) := by
  have hout : generateBSplinePoints quadControlPoints 10 =
      some ((tListFCore 88 (13421773/2^27) 0).map
        (curvePoint quadControlPoints 0)) := by
    rw [generateBSplinePoints, if_neg (by norm_num [quadControlPoints]),
      if_neg (by norm_num), if_neg (by norm_num),
      show quadControlPoints.length - 3 = 1 from rfl, show List.range 1 = [0] by rfl,
      show 8 * (10:ℤ).toNat + 8 = 88 from rfl,
      show (1 / ((10:ℤ):ℚ)) = 1/10 by norm_num, fl32_tenth,
      List.flatMap_cons, List.flatMap_nil, List.append_nil]
  refine ⟨_, hout, ?_, ?_⟩
  · rw [List.length_map, tListF_ten]
    rfl
  · rw [List.length_map, tListF_ten]
    norm_num [quadControlPoints]

/-- **C3 (amended)**: the curve evaluation returns an empty sequence when
`k < 4`; otherwise it returns `(k-3)·S` points where `S` is the number of
binary32 t-iterations of the sample loop — the same for every 4-point
window.  `S = P + 1` (with one sample landing exactly at `t = 1`) when the
float accumulation of `step = 1/P` is exact, as in the spec scenario
(`P = 4`, `step = 0.25` representable: the 6-point input yields
`(6-3)·5 = 15` points), but NOT for every positive `P`: for `P = 10` the
rounded accumulation overshoots `1.0` after 10 additions, so each window
yields only `P = 10` samples and none at `t = 1`. -/
theorem C3_float_point_count :
    (∀ (controlPoints : List (V3 ℚ)) (P : ℤ), 0 < P → controlPoints.length < 4 →
      generateBSplinePoints controlPoints P = some []) ∧
    (∀ (controlPoints : List (V3 ℚ)) (P : ℤ), 0 < P → 4 ≤ controlPoints.length →
      ∃ l, generateBSplinePoints controlPoints P = some l ∧
        l.length = (controlPoints.length - 3) *
          (tListFCore (8 * P.toNat + 8) (fl32 (1 / (P : ℚ))) 0).length) ∧
    (tListFCore 40 (fl32 (1/4 : ℚ)) 0 = [0, 1/4, 1/2, 3/4, 1] ∧
     (∃ l, generateBSplinePoints scenarioControlPoints 4 = some l ∧
       l.length = 15) ∧
     (tListFCore 88 (fl32 (1/10 : ℚ)) 0).length = 10) := by
  have hbranch : ∀ (controlPoints : List (V3 ℚ)) (P : ℤ), 0 < P →
      4 ≤ controlPoints.length →
      generateBSplinePoints controlPoints P =
        some ((List.range (controlPoints.length - 3)).flatMap
          (fun i => (tListFCore (8 * P.toNat + 8) (fl32 (1 / (P : ℚ))) 0).map
            (curvePoint controlPoints i))) := by
    intro controlPoints P hP h4
    rw [generateBSplinePoints, if_neg (by omega), if_neg (by omega),
      if_neg (by omega)]
  refine ⟨?_, ?_, ?_, ?_, ?_⟩
  · intro controlPoints P hP h
    simp [generateBSplinePoints, h]
  · intro controlPoints P hP h4
    refine ⟨_, hbranch controlPoints P hP h4, ?_⟩
    rw [flatMap_length_const (List.range (controlPoints.length - 3))
      (fun i => (tListFCore (8 * P.toNat + 8) (fl32 (1 / (P : ℚ))) 0).map
        (curvePoint controlPoints i))
      ((tListFCore (8 * P.toNat + 8) (fl32 (1 / (P : ℚ))) 0).length)
      (fun i => List.length_map _ _), List.length_range]
  · rw [fl32_quarter]
    exact tListF_four
  · refine ⟨_, hbranch scenarioControlPoints 4 (by norm_num)
      (by norm_num [scenarioControlPoints]), ?_⟩
    have hl : tListFCore (8 * (4:ℤ).toNat + 8) (fl32 (1 / ((4:ℤ) : ℚ))) 0 =
        [0, 1/4, 1/2, 3/4, 1] := by
      rw [show 8 * (4:ℤ).toNat + 8 = 40 from rfl,
        show (1 / ((4:ℤ):ℚ)) = (1/4 : ℚ) by norm_num, fl32_quarter]
      exact tListF_four
    rw [flatMap_length_const (List.range (scenarioControlPoints.length - 3))
      (fun i => (tListFCore (8 * (4:ℤ).toNat + 8) (fl32 (1 / ((4:ℤ) : ℚ))) 0).map
        (curvePoint scenarioControlPoints i)) 5
      (fun i => by rw [List.length_map, hl]; rfl), List.length_range]
    norm_num [scenarioControlPoints]
  · rw [fl32_tenth, tListF_ten]
    rfl

/-- Witness for the amended C3: the window-count law applied at the spec
scenario (6 points, `P = 4`) and the `k < 4` branch at the empty input. -/
theorem C3_float_point_count_witness :
    (0:ℤ) < 4 ∧ 4 ≤ scenarioControlPoints.length ∧
    (∃ l, generateBSplinePoints scenarioControlPoints 4 = some l ∧
      l.length = (scenarioControlPoints.length - 3) *
        (tListFCore (8 * (4:ℤ).toNat + 8) (fl32 (1 / ((4:ℤ) : ℚ))) 0).length) ∧
    (([] : List (V3 ℚ)).length < 4 ∧
      generateBSplinePoints [] 4 = some []) := by
  refine ⟨by norm_num, by norm_num [scenarioControlPoints], ?_, by norm_num,
    C3_float_point_count.1 [] 4 (by norm_num) (by norm_num)⟩
  exact C3_float_point_count.2.1 scenarioControlPoints 4 (by norm_num)
    (by norm_num [scenarioControlPoints])

-- ===========================================================================
-- Claim C4
-- ===========================================================================

/-- **C4**: for at least 4 control points and positive `pointsPerSegment`, the
first evaluated curve point (first window, `t = 0`) equals
`(1/6)·P0 + (4/6)·P1 + (1/6)·P2`.  (The `glm::mat4` constructor is
column-major, so the code's product `G * BSplineMatrix * T(0)` picks the
weights `(1/6, 4/6, 1/6, 0)` of the standard uniform cubic B-spline.) -/
theorem C4_first_sample_value (controlPoints : List (V3 ℚ)) (P : ℤ)
    (h4 : 4 ≤ controlPoints.length) (hP : 0 < P) :
    ∃ rest, generateBSplinePoints controlPoints P =
      some ((V3.smul (1/6) (controlPoints.getD 0 (V3.zero ℚ)) +
             V3.smul (4/6) (controlPoints.getD 1 (V3.zero ℚ)) +
             V3.smul (1/6) (controlPoints.getD 2 (V3.zero ℚ))) :: rest) := by
  have h1 : ¬ controlPoints.length < 4 := by omega
  have h2 : ¬ P < 0 := by omega
  have h3 : ¬ P = 0 := by omega
  rw [generateBSplinePoints, if_neg h1, if_neg h2, if_neg h3]
  obtain ⟨m, hm⟩ : ∃ m, controlPoints.length - 3 = m + 1 := ⟨controlPoints.length - 4, by omega⟩
  rw [hm, List.range_succ_eq_map, List.flatMap_cons]
  have hstep : (0 : ℚ) < fl32 (1 / (P : ℚ)) := by
    apply fl32_pos
    have hPq : (0:ℚ) < (P : ℚ) := by exact_mod_cast hP
    positivity
  rw [show 8 * P.toNat + 8 = (8 * P.toNat + 7) + 1 from rfl,
    tListFCore_cons _ _ _ ⟨hstep, by norm_num⟩, List.map_cons, List.cons_append]
  have hpt : curvePoint controlPoints 0 0 =
      V3.smul (1/6) (controlPoints.getD 0 (V3.zero ℚ)) +
      V3.smul (4/6) (controlPoints.getD 1 (V3.zero ℚ)) +
      V3.smul (1/6) (controlPoints.getD 2 (V3.zero ℚ)) := by
    simp only [curvePoint, mat4x3MulVec4, mat4MulVec4, BSplineMatrixCol, V3.smul,
      V3.add_def, V3.mk.injEq]
    norm_num
    exact ⟨by ring, by ring, by ring⟩
  rw [hpt]
  exact ⟨_, rfl⟩

/-- Witness for C4 at the spec scenario: the first of the 15 points is
`(1/6)(0,0,0) + (4/6)(1,0,0) + (1/6)(2,0,0) = (1,0,0)`. -/
theorem C4_first_sample_value_witness :
    4 ≤ scenarioControlPoints.length ∧ (0 : ℤ) < 4 ∧
    ∃ rest, generateBSplinePoints scenarioControlPoints 4 =
      some (⟨1, 0, 0⟩ :: rest) := by
  refine ⟨by norm_num [scenarioControlPoints], by norm_num, ?_⟩
  obtain ⟨rest, hrest⟩ :=
    C4_first_sample_value scenarioControlPoints 4 (by norm_num [scenarioControlPoints])
      (by norm_num)
  refine ⟨rest, ?_⟩
  rw [hrest]
  norm_num [scenarioControlPoints, V3.smul]

-- ===========================================================================
-- Claim C8
-- ===========================================================================

/-- **C8 counterexample**: with `pointsPerSegment = 0` and 4 control points the
source does NOT reject the call: it returns an ordinary (non-error) result,
the single `t = 0` sample of the only window.  There is no validation at the
API boundary. -/
theorem C8_counterexample :
    generateBSplinePoints quadControlPoints 0 = some [⟨4, 1, 0⟩] := by
  rw [generateBSplinePoints]
  norm_num [quadControlPoints, List.range_succ, curvePoint, mat4x3MulVec4,
    mat4MulVec4, BSplineMatrixCol, V3.zero, V3.mk.injEq]

/-- **C8 amended**: the source performs no validation of
`pointsPerSegment ≤ 0`.  For `pointsPerSegment = 0` the float step is `+∞`
and every window yields exactly one sample (no error is raised); for
`pointsPerSegment < 0` the sampling loop never terminates (divergence,
modelled by `none`) — in neither case is an `InvalidArgument`-style error
produced. -/
theorem C8_no_validation (controlPoints : List (V3 ℚ))
    (h4 : 4 ≤ controlPoints.length) :
    (∃ l, generateBSplinePoints controlPoints 0 = some l ∧
      l.length = controlPoints.length - 3) ∧
    (∀ P : ℤ, P < 0 → generateBSplinePoints controlPoints P = none) := by
  have h1 : ¬ controlPoints.length < 4 := by omega
  constructor
  · refine ⟨(List.range (controlPoints.length - 3)).flatMap
      (fun i => [curvePoint controlPoints i 0]), ?_, ?_⟩
    · rw [generateBSplinePoints, if_neg h1]
      norm_num
    · rw [flatMap_length_const (List.range (controlPoints.length - 3))
        (fun i => [curvePoint controlPoints i 0]) 1 (fun i => rfl),
        List.length_range, mul_one]
  · intro P hP
    rw [generateBSplinePoints, if_neg h1, if_pos hP]

/-- Witness for the amended C8 at a concrete 4-point input. -/
theorem C8_no_validation_witness :
    4 ≤ quadControlPoints.length ∧
    ((∃ l, generateBSplinePoints quadControlPoints 0 = some l ∧ l.length = 1) ∧
      ((-1 : ℤ) < 0 ∧ generateBSplinePoints quadControlPoints (-1) = none)) := by
  have h := C8_no_validation quadControlPoints (by norm_num [quadControlPoints])
  refine ⟨by norm_num [quadControlPoints], ?_, by norm_num, h.2 (-1) (by norm_num)⟩
  simpa [quadControlPoints] using h.1

-- ===========================================================================
-- TrackExtruder: `generateTrackMesh` (src/unnamed/part_001, 1467-1544)
-- ===========================================================================

/-- Four-quadrant arctangent, the embedding of C `atan2(y, x)`
(range `(-π, π]`, `atan2 0 0 = 0`). -/
noncomputable def atan2 (y x : ℝ) : ℝ :=
  if 0 < x then Real.arctan (y / x)
  else if x < 0 then
    (if 0 ≤ y then Real.arctan (y / x) + Real.pi else Real.arctan (y / x) - Real.pi)
  else
    (if 0 < y then Real.pi / 2 else if y < 0 then -(Real.pi / 2) else 0)

/-- `glm::radians`: degrees to radians. -/
noncomputable def radians (deg : ℝ) : ℝ := deg * (Real.pi / 180)

/-- The interleaved vertex layout of the source's `struct Vertex`:
position `x y z`, texture coordinates `s t`, normal `nx ny nz`. -/
structure Vertex where
  x : ℝ
  y : ℝ
  z : ℝ
  s : ℝ
  t : ℝ
  nx : ℝ
  ny : ℝ
  nz : ℝ

/-- The offset vector of the first loop of `generateTrackMesh`
(source lines 1480-1501): `A = centerPoints[i]`, `B = centerPoints[(i+1) % n]`,
`theta = atan2(dy, dx)`, `alpha = theta ∓ 90°` (minus when `dx < 0`),
`offset = (cos α · halfWidth, sin α · halfWidth, 0)`. -/
noncomputable def segmentOffset (centerPoints : List (V3 ℝ)) (halfWidth : ℝ)
    (i : ℕ) : V3 ℝ :=
  let A := centerPoints.getD i (V3.zero ℝ)
  let B := centerPoints.getD ((i + 1) % centerPoints.length) (V3.zero ℝ)
  let dx := B.x - A.x
  let dy := B.y - A.y
  let theta := atan2 dy dx
  let alpha := if dx < 0 then theta - radians 90 else theta + radians 90
  ⟨Real.cos alpha * halfWidth, Real.sin alpha * halfWidth, 0⟩

/-- `innerPoints[i] = A + offset` (source line 1500). -/
noncomputable def innerPointsOf (centerPoints : List (V3 ℝ)) (halfWidth : ℝ) :
    List (V3 ℝ) :=
  (List.range centerPoints.length).map
    (fun i => centerPoints.getD i (V3.zero ℝ) + segmentOffset centerPoints halfWidth i)

/-- `outerPoints[i] = A - offset` (source line 1501). -/
noncomputable def outerPointsOf (centerPoints : List (V3 ℝ)) (halfWidth : ℝ) :
    List (V3 ℝ) :=
  (List.range centerPoints.length).map
    (fun i => centerPoints.getD i (V3.zero ℝ) - segmentOffset centerPoints halfWidth i)

/-- One iteration of the quad-emission loop (source lines 1507-1543):
reads `C = inner[i]`, `A = outer[i]`, `B = outer[next]`, `D = inner[next]`,
appends the four vertices `v0..v3` with UVs `(0,0),(1,0),(1,1),(0,1)` and
normal `(0,0,1)`, then appends the indices
`base, base+3, base+1, base+1, base+3, base+2` with `base` the vertex count
before the append. -/
noncomputable def trackStep (innerPoints outerPoints : List (V3 ℝ)) (n : ℕ)
    (acc : List Vertex × List ℕ) (i : ℕ) : List Vertex × List ℕ :=
  let next := (i + 1) % n
  let A := outerPoints.getD i (V3.zero ℝ)
  let B := outerPoints.getD next (V3.zero ℝ)
  let C := innerPoints.getD i (V3.zero ℝ)
  let D := innerPoints.getD next (V3.zero ℝ)
  let v0 : Vertex := ⟨C.x, C.y, C.z, 0, 0, 0, 0, 1⟩
  let v1 : Vertex := ⟨A.x, A.y, A.z, 1, 0, 0, 0, 1⟩
  let v2 : Vertex := ⟨B.x, B.y, B.z, 1, 1, 0, 0, 1⟩
  let v3 : Vertex := ⟨D.x, D.y, D.z, 0, 1, 0, 0, 1⟩
  let base := acc.1.length
  (acc.1 ++ [v0, v1, v2, v3],
   acc.2 ++ [base, base + 3, base + 1, base + 1, base + 3, base + 2])

/-- Embedding of `generateTrackMesh` (source lines 1467-1544): clear both
output vectors, return them empty when `n < 2`, otherwise run the quad loop
over all `n` edges.  (`halfWidth = trackWidth * 0.5f` is written
`trackWidth * (1/2)`.) -/
noncomputable def generateTrackMesh (centerPoints : List (V3 ℝ)) (trackWidth : ℝ) :
    List Vertex × List ℕ :=
  if centerPoints.length < 2 then ([], []) else
  (List.range centerPoints.length).foldl
    (trackStep (innerPointsOf centerPoints (trackWidth * (1 / 2)))
      (outerPointsOf centerPoints (trackWidth * (1 / 2)))
      centerPoints.length)
    ([], [])

/-- The four vertices emitted for edge `i`. -/
noncomputable def quadAt (innerPoints outerPoints : List (V3 ℝ)) (n i : ℕ) :
    List Vertex :=
  let next := (i + 1) % n
  let A := outerPoints.getD i (V3.zero ℝ)
  let B := outerPoints.getD next (V3.zero ℝ)
  let C := innerPoints.getD i (V3.zero ℝ)
  let D := innerPoints.getD next (V3.zero ℝ)
  [⟨C.x, C.y, C.z, 0, 0, 0, 0, 1⟩,
   ⟨A.x, A.y, A.z, 1, 0, 0, 0, 1⟩,
   ⟨B.x, B.y, B.z, 1, 1, 0, 0, 1⟩,
   ⟨D.x, D.y, D.z, 0, 1, 0, 0, 1⟩]

/-- The six indices emitted for edge `i` (two triangles of the quad). -/
def idxAt (i : ℕ) : List ℕ :=
  [4 * i, 4 * i + 3, 4 * i + 1, 4 * i + 1, 4 * i + 3, 4 * i + 2]

/-- The quad loop produces, over the first `m` edges, the concatenation of the
per-edge quads and the per-edge index lists (with `base = 4·i` for edge `i`). -/
lemma trackFold_eq (ip op : List (V3 ℝ)) (n : ℕ) :
    ∀ m, (List.range m).foldl (trackStep ip op n) ([], []) =
      ((List.range m).flatMap (quadAt ip op n), (List.range m).flatMap idxAt) := by
  intro m
  induction m with
  | zero => rfl
  | succ k ihk =>
    rw [List.range_succ, List.foldl_append, ihk]
    have hlen : ((List.range k).flatMap (quadAt ip op n)).length = 4 * k := by
      rw [flatMap_length_const (List.range k) (quadAt ip op n) 4 (fun j => rfl),
        List.length_range, Nat.mul_comm]
    simp only [List.foldl_cons, List.foldl_nil, List.flatMap_append,
      List.flatMap_cons, List.flatMap_nil, List.append_nil]
    rw [trackStep, hlen]
    refine Prod.ext rfl ?_
    simp only [idxAt]

/-- For `n ≥ 2`, `generateTrackMesh` is the concatenation of per-edge quads
and index lists. -/
lemma generateTrackMesh_eq (centerPoints : List (V3 ℝ)) (trackWidth : ℝ)
    (h : 2 ≤ centerPoints.length) :
    generateTrackMesh centerPoints trackWidth =
      ((List.range centerPoints.length).flatMap
        (quadAt (innerPointsOf centerPoints (trackWidth * (1 / 2)))
          (outerPointsOf centerPoints (trackWidth * (1 / 2)))
          centerPoints.length),
       (List.range centerPoints.length).flatMap idxAt) := by
  rw [generateTrackMesh, if_neg (by omega), trackFold_eq]

/-- Accessing chunk `i` of a `flatMap` over `range n` whose chunks all have
length `c`. -/
lemma flatMap_chunk {α : Type} (f : ℕ → List α) (c : ℕ)
    (hc : ∀ j, (f j).length = c) :
    ∀ n i, i < n → ((((List.range n).flatMap f).drop (c * i)).take c) = f i := by
  intro n
  induction n with
  | zero => intro i hi; exact absurd hi (Nat.not_lt_zero i)
  | succ m ihm =>
    intro i hi
    rw [List.range_succ, List.flatMap_append, List.flatMap_cons, List.flatMap_nil,
      List.append_nil]
    have hlen : ((List.range m).flatMap f).length = c * m := by
      rw [flatMap_length_const (List.range m) f c hc, List.length_range, Nat.mul_comm]
    rcases Nat.lt_or_ge i m with him | him
    · have hmul : c * i + c ≤ c * m := by
        have h1 := Nat.mul_le_mul_left c him
        rwa [Nat.mul_succ] at h1
      rw [List.drop_append_eq_append_drop]
      have hz : c * i - ((List.range m).flatMap f).length = 0 := by
        rw [hlen]
        omega
      rw [hz, List.drop_zero, List.take_append_eq_append_take]
      have hdroplen : (((List.range m).flatMap f).drop (c * i)).length = c * m - c * i := by
        rw [List.length_drop, hlen]
      have hz2 : c - (((List.range m).flatMap f).drop (c * i)).length = 0 := by
        rw [hdroplen]
        omega
      rw [hz2, List.take_zero, List.append_nil]
      exact ihm i him
    · have hieq : i = m := by omega
      subst hieq
      rw [List.drop_append_eq_append_drop]
      have h1 : ((List.range i).flatMap f).drop (c * i) = [] :=
        List.drop_eq_nil_of_le (le_of_eq hlen)
      have h2 : c * i - ((List.range i).flatMap f).length = 0 := by
        rw [hlen]
        omega
      rw [h1, h2, List.drop_zero, List.nil_append]
      exact List.take_of_length_le (le_of_eq (hc i))

-- ===========================================================================
-- Claim-side (spec-side) extrusion geometry, transcribed from claim C1
-- ===========================================================================

/-- Claim C1's perpendicular angle: `a = atan2(B.y-A.y, B.x-A.x)` minus 90°
when `B.x-A.x < 0` and plus 90° otherwise, with `A = loop[i]`,
`B = loop[(i+1) mod n]`.  (Spec-side transcription, to be compared with the
source-side `segmentOffset`.) -/
noncomputable def claimAlpha (loop : List (V3 ℝ)) (i : ℕ) : ℝ :=
  let A := loop.getD i (V3.zero ℝ)
  let B := loop.getD ((i + 1) % loop.length) (V3.zero ℝ)
  if B.x - A.x < 0 then atan2 (B.y - A.y) (B.x - A.x) - radians 90
  else atan2 (B.y - A.y) (B.x - A.x) + radians 90

/-- Claim C1's offset `(w/2)·(cos a, sin a, 0)`. -/
noncomputable def claimOffset (loop : List (V3 ℝ)) (w : ℝ) (i : ℕ) : V3 ℝ :=
  ⟨w / 2 * Real.cos (claimAlpha loop i), w / 2 * Real.sin (claimAlpha loop i), 0⟩

/-- Claim C1's `inner[i] = A + offset`. -/
noncomputable def claimInner (loop : List (V3 ℝ)) (w : ℝ) (i : ℕ) : V3 ℝ :=
  loop.getD i (V3.zero ℝ) + claimOffset loop w i

/-- Claim C1's `outer[i] = A - offset`. -/
noncomputable def claimOuter (loop : List (V3 ℝ)) (w : ℝ) (i : ℕ) : V3 ℝ :=
  loop.getD i (V3.zero ℝ) - claimOffset loop w i

/-- The spec-side offset coincides with the source-side offset
(`w/2 · cos α` versus `cos α · (w·(1/2))`). -/
lemma claimOffset_eq_segmentOffset (loop : List (V3 ℝ)) (w : ℝ) (i : ℕ) :
    claimOffset loop w i = segmentOffset loop (w * (1 / 2)) i := by
  simp only [claimOffset, segmentOffset, claimAlpha]
  rw [V3.mk.injEq]
  exact ⟨by ring, by ring, rfl⟩

/-- Element `i` of the precomputed inner-edge list. -/
lemma innerPointsOf_getD (centerPoints : List (V3 ℝ)) (halfWidth : ℝ) (i : ℕ)
    (hi : i < centerPoints.length) :
    (innerPointsOf centerPoints halfWidth).getD i (V3.zero ℝ) =
      centerPoints.getD i (V3.zero ℝ) + segmentOffset centerPoints halfWidth i := by
  simp [innerPointsOf, List.getD_eq_getElem?_getD, List.getElem?_map,
    List.getElem?_range hi]

/-- Element `i` of the precomputed outer-edge list. -/
lemma outerPointsOf_getD (centerPoints : List (V3 ℝ)) (halfWidth : ℝ) (i : ℕ)
    (hi : i < centerPoints.length) :
    (outerPointsOf centerPoints halfWidth).getD i (V3.zero ℝ) =
      centerPoints.getD i (V3.zero ℝ) - segmentOffset centerPoints halfWidth i := by
  simp [outerPointsOf, List.getD_eq_getElem?_getD, List.getElem?_map,
    List.getElem?_range hi]

-- ===========================================================================
-- Claim C1
-- ===========================================================================

/-- **C1**: for a closed loop of `n ≥ 2` points and any width `w`, edge `i`
appends exactly the 4 vertices `inner[i], outer[i], outer[(i+1) mod n],
inner[(i+1) mod n]` (with `inner/outer = A ± (w/2)(cos a, sin a, 0)`, `a` the
quadrant-corrected perpendicular angle), UVs `(0,0),(1,0),(1,1),(0,1)`,
normal `(0,0,1)`, height copied from the centerline, and the two triangles
`(v0,v3,v1)`, `(v1,v3,v2)` as offsets `base = 4·i` into the fresh quad. -/
theorem C1_quad_emission (loop : List (V3 ℝ)) (w : ℝ) (i : ℕ)
    (h2 : 2 ≤ loop.length) (hi : i < loop.length) :
    (((generateTrackMesh loop w).1.drop (4 * i)).take 4 =
      [⟨(claimInner loop w i).x, (claimInner loop w i).y, (claimInner loop w i).z,
        0, 0, 0, 0, 1⟩,
       ⟨(claimOuter loop w i).x, (claimOuter loop w i).y, (claimOuter loop w i).z,
        1, 0, 0, 0, 1⟩,
       ⟨(claimOuter loop w ((i + 1) % loop.length)).x,
        (claimOuter loop w ((i + 1) % loop.length)).y,
        (claimOuter loop w ((i + 1) % loop.length)).z, 1, 1, 0, 0, 1⟩,
       ⟨(claimInner loop w ((i + 1) % loop.length)).x,
        (claimInner loop w ((i + 1) % loop.length)).y,
        (claimInner loop w ((i + 1) % loop.length)).z, 0, 1, 0, 0, 1⟩]) ∧
    (claimInner loop w i).z = (loop.getD i (V3.zero ℝ)).z ∧
    (claimOuter loop w i).z = (loop.getD i (V3.zero ℝ)).z ∧
    (((generateTrackMesh loop w).2.drop (6 * i)).take 6 =
      [4 * i, 4 * i + 3, 4 * i + 1, 4 * i + 1, 4 * i + 3, 4 * i + 2]) := by
  have hnext : (i + 1) % loop.length < loop.length := Nat.mod_lt _ (by omega)
  have hv : (generateTrackMesh loop w).1 =
      (List.range loop.length).flatMap
        (quadAt (innerPointsOf loop (w * (1 / 2)))
          (outerPointsOf loop (w * (1 / 2))) loop.length) := by
    rw [generateTrackMesh_eq loop w h2]
  have hidx : (generateTrackMesh loop w).2 =
      (List.range loop.length).flatMap idxAt := by
    rw [generateTrackMesh_eq loop w h2]
  refine ⟨?_, ?_, ?_, ?_⟩
  · rw [hv, flatMap_chunk
      (quadAt (innerPointsOf loop (w * (1 / 2))) (outerPointsOf loop (w * (1 / 2)))
        loop.length) 4 (fun j => rfl) loop.length i hi]
    simp only [quadAt, claimInner, claimOuter, claimOffset_eq_segmentOffset,
      innerPointsOf_getD _ _ _ hi, innerPointsOf_getD _ _ _ hnext,
      outerPointsOf_getD _ _ _ hi, outerPointsOf_getD _ _ _ hnext,
      V3.add_def, V3.sub_def]
  · simp [claimInner, claimOffset]
  · simp [claimOuter, claimOffset]
  · rw [hidx, flatMap_chunk idxAt 6 (fun j => rfl) loop.length i hi]
    simp [idxAt]

/-- A concrete 2-point loop used as witness input for the extrusion claims. -/
noncomputable def demoLoop : List (V3 ℝ) := [⟨0, 0, 0⟩, ⟨1, 0, 5⟩]

/-- Witness for C1 at `demoLoop`, `w = 2`, edge `i = 0`. -/
theorem C1_quad_emission_witness :
    2 ≤ demoLoop.length ∧ 0 < demoLoop.length ∧
    ((((generateTrackMesh demoLoop 2).1.drop (4 * 0)).take 4 =
      [⟨(claimInner demoLoop 2 0).x, (claimInner demoLoop 2 0).y,
        (claimInner demoLoop 2 0).z, 0, 0, 0, 0, 1⟩,
       ⟨(claimOuter demoLoop 2 0).x, (claimOuter demoLoop 2 0).y,
        (claimOuter demoLoop 2 0).z, 1, 0, 0, 0, 1⟩,
       ⟨(claimOuter demoLoop 2 ((0 + 1) % demoLoop.length)).x,
        (claimOuter demoLoop 2 ((0 + 1) % demoLoop.length)).y,
        (claimOuter demoLoop 2 ((0 + 1) % demoLoop.length)).z, 1, 1, 0, 0, 1⟩,
       ⟨(claimInner demoLoop 2 ((0 + 1) % demoLoop.length)).x,
        (claimInner demoLoop 2 ((0 + 1) % demoLoop.length)).y,
        (claimInner demoLoop 2 ((0 + 1) % demoLoop.length)).z, 0, 1, 0, 0, 1⟩]) ∧
    (claimInner demoLoop 2 0).z = (demoLoop.getD 0 (V3.zero ℝ)).z ∧
    (claimOuter demoLoop 2 0).z = (demoLoop.getD 0 (V3.zero ℝ)).z ∧
    (((generateTrackMesh demoLoop 2).2.drop (6 * 0)).take 6 =
      [4 * 0, 4 * 0 + 3, 4 * 0 + 1, 4 * 0 + 1, 4 * 0 + 3, 4 * 0 + 2])) := by
  refine ⟨by norm_num [demoLoop], by norm_num [demoLoop], ?_⟩
  exact C1_quad_emission demoLoop 2 0 (by norm_num [demoLoop]) (by norm_num [demoLoop])

-- ===========================================================================
-- Claim C2
-- ===========================================================================

/-- **C2**: `generateTrackMesh` produces exactly `4n` vertices and `6n` index
entries when `n ≥ 2`, and empty vertex and index sequences when `n < 2`. -/
theorem C2_mesh_sizes (centerPoints : List (V3 ℝ)) (trackWidth : ℝ) :
    (2 ≤ centerPoints.length →
      (generateTrackMesh centerPoints trackWidth).1.length = 4 * centerPoints.length ∧
      (generateTrackMesh centerPoints trackWidth).2.length = 6 * centerPoints.length) ∧
    (centerPoints.length < 2 →
      generateTrackMesh centerPoints trackWidth = ([], [])) := by
  constructor
  · intro h
    have hv : (generateTrackMesh centerPoints trackWidth).1 =
        (List.range centerPoints.length).flatMap
          (quadAt (innerPointsOf centerPoints (trackWidth * (1 / 2)))
            (outerPointsOf centerPoints (trackWidth * (1 / 2)))
            centerPoints.length) := by
      rw [generateTrackMesh_eq centerPoints trackWidth h]
    have hidx : (generateTrackMesh centerPoints trackWidth).2 =
        (List.range centerPoints.length).flatMap idxAt := by
      rw [generateTrackMesh_eq centerPoints trackWidth h]
    constructor
    · rw [hv, flatMap_length_const (List.range centerPoints.length)
        (quadAt (innerPointsOf centerPoints (trackWidth * (1 / 2)))
          (outerPointsOf centerPoints (trackWidth * (1 / 2)))
          centerPoints.length) 4 (fun j => rfl),
        List.length_range, Nat.mul_comm]
    · rw [hidx, flatMap_length_const (List.range centerPoints.length) idxAt 6
        (fun j => rfl), List.length_range, Nat.mul_comm]
  · intro h
    rw [generateTrackMesh, if_pos h]

/-- A single-point centerline (degenerate input for the extrusion). -/
noncomputable def demoPoint : List (V3 ℝ) := [⟨0, 0, 0⟩]

/-- Witness for C2: the 2-point loop gives 8 vertices and 12 indices; the
1-point list gives the empty mesh. -/
theorem C2_mesh_sizes_witness :
    (2 ≤ demoLoop.length ∧
      (generateTrackMesh demoLoop 2).1.length = 8 ∧
      (generateTrackMesh demoLoop 2).2.length = 12) ∧
    (demoPoint.length < 2 ∧ generateTrackMesh demoPoint 2 = ([], [])) := by
  constructor
  · refine ⟨by norm_num [demoLoop], ?_⟩
    have h := (C2_mesh_sizes demoLoop 2).1 (by norm_num [demoLoop])
    simpa [demoLoop] using h
  · exact ⟨by norm_num [demoPoint],
      (C2_mesh_sizes demoPoint 2).2 (by norm_num [demoPoint])⟩

-- ===========================================================================
-- Claim C9
-- ===========================================================================

/-- **C9**: every entry of the index buffer produced by `generateTrackMesh`
is strictly smaller than the final vertex count, so indexing the returned
vertex buffer with any returned index is in bounds. -/
theorem C9_index_bounds (loop : List (V3 ℝ)) (w : ℝ) :
    ∀ j ∈ (generateTrackMesh loop w).2, j < (generateTrackMesh loop w).1.length := by
  intro j hj
  rcases Nat.lt_or_ge loop.length 2 with h | h
  · rw [generateTrackMesh, if_pos h] at hj
    simp at hj
  · have hcount := (C2_mesh_sizes loop w).1 h
    have hidx : (generateTrackMesh loop w).2 =
        (List.range loop.length).flatMap idxAt := by
      rw [generateTrackMesh_eq loop w h]
    rw [hidx] at hj
    rw [hcount.1]
    rw [List.mem_flatMap] at hj
    obtain ⟨i, hi, hmem⟩ := hj
    rw [List.mem_range] at hi
    simp only [idxAt, List.mem_cons, List.not_mem_nil, or_false] at hmem
    omega

/-- Witness for C9: index entry `3` of the demo mesh is below its vertex
count `8`. -/
theorem C9_index_bounds_witness :
    3 ∈ (generateTrackMesh demoLoop 2).2 ∧
    3 < (generateTrackMesh demoLoop 2).1.length := by
  have hmem : 3 ∈ (generateTrackMesh demoLoop 2).2 := by
    have hidx : (generateTrackMesh demoLoop 2).2 =
        (List.range demoLoop.length).flatMap idxAt := by
      rw [generateTrackMesh_eq demoLoop 2 (by norm_num [demoLoop])]
    rw [hidx]
    norm_num [demoLoop, List.range_succ, idxAt]
  exact ⟨hmem, C9_index_bounds demoLoop 2 3 hmem⟩

-- ===========================================================================
-- VehiclePlacer: the `Carro` placement block of `main`
-- (src/unnamed/part_001, 1049-1074)
-- ===========================================================================

/-- `glm::dot` on `vec3`. -/
def dot3 (a b : V3 ℝ) : ℝ := a.x * b.x + a.y * b.y + a.z * b.z

/-- `glm::cross` (right-handed cross product, glm component convention). -/
def cross3 (a b : V3 ℝ) : V3 ℝ :=
  ⟨a.y * b.z - a.z * b.y, a.z * b.x - a.x * b.z, a.x * b.y - a.y * b.x⟩

/-- `glm::length`: the Euclidean norm `sqrt(dot(v, v))`. -/
noncomputable def norm3 (v : V3 ℝ) : ℝ := Real.sqrt (dot3 v v)

/-- `glm::normalize`: `v / |v|` componentwise. -/
noncomputable def normalize3 (v : V3 ℝ) : V3 ℝ :=
  ⟨v.x / norm3 v, v.y / norm3 v, v.z / norm3 v⟩

/-- The world up vector `(0, 1, 0)` used for the car's frame. -/
def worldUp : V3 ℝ := ⟨0, 1, 0⟩

/-- Scalar triple product `a · (b × c)`: the determinant of the matrix with
columns `a, b, c`.  An ordered orthonormal triple is right-handed iff its
triple product is `+1`. -/
def det3 (a b c : V3 ℝ) : ℝ := dot3 a (cross3 b c)

/-- Embedding of the `Carro` placement block (source lines 1049-1074): with
`N = loop.length ≥ 3`, `idx = index % N`, neighbours `prevIdx`/`nextIdx` with
wrap-around, it computes the position `C = loop[idx]`, the central-difference
tangent `forward = normalize(loop[nextIdx] - loop[prevIdx])`,
`right = normalize(cross(forward, (0,1,0)))` and `upAxis = cross(right,
forward)`.  (`(idx - 1 + N) % N` is written `(idx + N - 1) % N`, the same
value without natural-number underflow.)  Guarded by the source's
`size() >= 3` check; the degenerate branch returns zeros. -/
noncomputable def place (loop : List (V3 ℝ)) (index : ℕ) :
    V3 ℝ × V3 ℝ × V3 ℝ × V3 ℝ :=
  if loop.length < 3 then (V3.zero ℝ, V3.zero ℝ, V3.zero ℝ, V3.zero ℝ) else
  let N := loop.length
  let idx := index % N
  let prevIdx := (idx + N - 1) % N
  let nextIdx := (idx + 1) % N
  let P := loop.getD prevIdx (V3.zero ℝ)
  let C := loop.getD idx (V3.zero ℝ)
  let Np := loop.getD nextIdx (V3.zero ℝ)
  let dir := normalize3 (Np - P)
  let forward := dir
  let right := normalize3 (cross3 forward worldUp)
  let upAxis := cross3 right forward
  (C, forward, right, upAxis)

-- Component algebra

lemma dot3_comm (a b : V3 ℝ) : dot3 a b = dot3 b a := by
  simp only [dot3]
  ring

lemma dot3_cross_self_left (a b : V3 ℝ) : dot3 a (cross3 a b) = 0 := by
  simp only [dot3, cross3]
  ring

lemma dot3_cross_self_right (a b : V3 ℝ) : dot3 b (cross3 a b) = 0 := by
  simp only [dot3, cross3]
  ring

/-- Lagrange identity for the cross product. -/
lemma dot3_cross_cross_self (a b : V3 ℝ) :
    dot3 (cross3 a b) (cross3 a b) = dot3 a a * dot3 b b - (dot3 a b) ^ 2 := by
  simp only [dot3, cross3]
  ring

/-- The triple product of `f`, `r` and `r × f`. -/
lemma dot3_cross_double (r f : V3 ℝ) :
    dot3 f (cross3 r (cross3 r f)) = (dot3 r f) ^ 2 - dot3 r r * dot3 f f := by
  simp only [dot3, cross3]
  ring

lemma dot3_self_nonneg (a : V3 ℝ) : 0 ≤ dot3 a a := by
  simp only [dot3]
  nlinarith [mul_self_nonneg a.x, mul_self_nonneg a.y, mul_self_nonneg a.z]

lemma norm3_mul_self (a : V3 ℝ) : norm3 a * norm3 a = dot3 a a :=
  Real.mul_self_sqrt (dot3_self_nonneg a)

lemma norm3_pos {v : V3 ℝ} (h : v ≠ V3.zero ℝ) : 0 < norm3 v := by
  obtain ⟨a, b, c⟩ := v
  apply Real.sqrt_pos.mpr
  simp only [dot3]
  rcases lt_or_eq_of_le (add_nonneg (add_nonneg (mul_self_nonneg a) (mul_self_nonneg b))
    (mul_self_nonneg c)) with hlt | heq
  · exact hlt
  · exfalso
    apply h
    have ha : a * a = 0 := by nlinarith [mul_self_nonneg a, mul_self_nonneg b, mul_self_nonneg c]
    have hb : b * b = 0 := by nlinarith [mul_self_nonneg a, mul_self_nonneg b, mul_self_nonneg c]
    have hc : c * c = 0 := by nlinarith [mul_self_nonneg a, mul_self_nonneg b, mul_self_nonneg c]
    simp [V3.zero, mul_self_eq_zero.mp ha, mul_self_eq_zero.mp hb, mul_self_eq_zero.mp hc]

/-- A normalized nonzero vector has unit norm. -/
lemma norm3_normalize {v : V3 ℝ} (h : v ≠ V3.zero ℝ) : norm3 (normalize3 v) = 1 := by
  have hL : 0 < norm3 v := norm3_pos h
  have hL2 : norm3 v * norm3 v = v.x * v.x + v.y * v.y + v.z * v.z := by
    simpa [dot3] using norm3_mul_self v
  have hdot : dot3 (normalize3 v) (normalize3 v) = 1 := by
    simp only [normalize3, dot3]
    field_simp
    linear_combination hL2.symm
  rw [norm3, hdot, Real.sqrt_one]

/-- Dot product against a normalized vector rescales by the norm. -/
lemma dot3_normalize_right (a v : V3 ℝ) :
    dot3 a (normalize3 v) = dot3 a v / norm3 v := by
  simp only [dot3, normalize3]
  ring

/-- Dot product with a normalized vector on the left. -/
lemma dot3_normalize_left (v b : V3 ℝ) :
    dot3 (normalize3 v) b = dot3 v b / norm3 v := by
  simp only [dot3, normalize3]
  ring

/-- Cross product scales on the left argument under normalization. -/
lemma cross3_normalize_left (v b : V3 ℝ) :
    cross3 (normalize3 v) b =
      ⟨(cross3 v b).x / norm3 v, (cross3 v b).y / norm3 v, (cross3 v b).z / norm3 v⟩ := by
  simp only [cross3, normalize3, V3.mk.injEq]
  refine ⟨by ring, by ring, by ring⟩

/-- The central-difference vector `loop[nextIdx] - loop[prevIdx]` that the
placement block normalizes into the forward direction. -/
noncomputable def placeDiff (loop : List (V3 ℝ)) (index : ℕ) : V3 ℝ :=
  loop.getD ((index % loop.length + 1) % loop.length) (V3.zero ℝ) -
    loop.getD ((index % loop.length + loop.length - 1) % loop.length) (V3.zero ℝ)

/-- Closed form of `place` for loops of at least 3 points. -/
lemma place_eq (loop : List (V3 ℝ)) (index : ℕ) (h : 3 ≤ loop.length) :
    place loop index =
      (loop.getD (index % loop.length) (V3.zero ℝ),
       normalize3 (placeDiff loop index),
       normalize3 (cross3 (normalize3 (placeDiff loop index)) worldUp),
       cross3 (normalize3 (cross3 (normalize3 (placeDiff loop index)) worldUp))
         (normalize3 (placeDiff loop index))) := by
  rw [place, if_neg (by omega)]
  rfl

-- ===========================================================================
-- Claim C5
-- ===========================================================================

/-- **C5 (amended)**: for a loop of `N ≥ 3` points and an index whose
central-difference direction exists (`placeDiff ≠ 0`) and is not parallel to
`worldUp` (`cross(forward, worldUp) ≠ 0`), the placement returns
`position = loop[idx]` and a frame `{forward, right, up}` with
`right = normalize(cross(forward, worldUp))` and `up = cross(right, forward)`
in which all three vectors have unit length and all pairwise dot products
vanish — but the ordered frame is LEFT-handed: the triple product
`det[forward, right, up]` is `-1`, not `+1` (equivalently,
`(right, forward, up)` is the right-handed ordering). -/
theorem C5_frame_orthonormal_left_handed (loop : List (V3 ℝ)) (index : ℕ)
    (hN : 3 ≤ loop.length)
    (hd : placeDiff loop index ≠ V3.zero ℝ)
    (hpar : cross3 (normalize3 (placeDiff loop index)) worldUp ≠ V3.zero ℝ) :
    (place loop index).1 = loop.getD (index % loop.length) (V3.zero ℝ) ∧
    norm3 (place loop index).2.1 = 1 ∧
    norm3 (place loop index).2.2.1 = 1 ∧
    norm3 (place loop index).2.2.2 = 1 ∧
    dot3 (place loop index).2.1 (place loop index).2.2.1 = 0 ∧
    dot3 (place loop index).2.1 (place loop index).2.2.2 = 0 ∧
    dot3 (place loop index).2.2.1 (place loop index).2.2.2 = 0 ∧
    (place loop index).2.2.2 =
      cross3 (place loop index).2.2.1 (place loop index).2.1 ∧
    det3 (place loop index).2.1 (place loop index).2.2.1
      (place loop index).2.2.2 = -1 := by
  rw [place_eq loop index hN]
  dsimp only
  set f := normalize3 (placeDiff loop index) with hf_def
  set r := normalize3 (cross3 f worldUp) with hr_def
  have hf1 : norm3 f = 1 := norm3_normalize hd
  have hr1 : norm3 r = 1 := norm3_normalize hpar
  have hff : dot3 f f = 1 := by
    rw [← norm3_mul_self f, hf1, one_mul]
  have hrr : dot3 r r = 1 := by
    rw [← norm3_mul_self r, hr1, one_mul]
  have hfr : dot3 f r = 0 := by
    rw [hr_def, dot3_normalize_right, dot3_cross_self_left, zero_div]
  have hrf : dot3 r f = 0 := by
    rw [dot3_comm]
    exact hfr
  have huu : dot3 (cross3 r f) (cross3 r f) = 1 := by
    rw [dot3_cross_cross_self, hrr, hff, hrf]
    norm_num
  refine ⟨rfl, hf1, hr1, ?_, hfr, ?_, ?_, rfl, ?_⟩
  · rw [norm3, huu, Real.sqrt_one]
  · exact dot3_cross_self_right r f
  · exact dot3_cross_self_left r f
  · rw [det3, dot3_cross_double, hrf, hrr, hff]
    norm_num

/-- A concrete 3-point loop used to probe the vehicle frame. -/
noncomputable def demoLine : List (V3 ℝ) := [⟨0, 0, 0⟩, ⟨1, 0, 0⟩, ⟨2, 0, 0⟩]

lemma demoLine_placeDiff : placeDiff demoLine 1 = ⟨2, 0, 0⟩ := by
  norm_num [placeDiff, demoLine, V3.zero, V3.mk.injEq]

lemma sqrt_four : Real.sqrt 4 = 2 := by
  rw [show (4 : ℝ) = 2 ^ 2 by norm_num, Real.sqrt_sq (by norm_num : (0 : ℝ) ≤ 2)]

lemma demoLine_forward : normalize3 (⟨2, 0, 0⟩ : V3 ℝ) = ⟨1, 0, 0⟩ := by
  have hdot : dot3 (⟨2, 0, 0⟩ : V3 ℝ) ⟨2, 0, 0⟩ = 4 := by norm_num [dot3]
  have hn : norm3 (⟨2, 0, 0⟩ : V3 ℝ) = 2 := by rw [norm3, hdot, sqrt_four]
  rw [normalize3, hn]
  norm_num [V3.mk.injEq]

lemma demoLine_cross : cross3 (⟨1, 0, 0⟩ : V3 ℝ) worldUp = ⟨0, 0, 1⟩ := by
  norm_num [cross3, worldUp, V3.mk.injEq]

lemma demoLine_right : normalize3 (⟨0, 0, 1⟩ : V3 ℝ) = ⟨0, 0, 1⟩ := by
  have hdot : dot3 (⟨0, 0, 1⟩ : V3 ℝ) ⟨0, 0, 1⟩ = 1 := by norm_num [dot3]
  have hn : norm3 (⟨0, 0, 1⟩ : V3 ℝ) = 1 := by rw [norm3, hdot, Real.sqrt_one]
  rw [normalize3, hn]
  norm_num [V3.mk.injEq]

/-- **C5 counterexample**: the claim asserts the frame
`{forward, right, up}` is a right-handed basis, i.e. its triple product is
`+1`; at the loop `[(0,0,0),(1,0,0),(2,0,0)]` with index `1` the computed
frame is `forward = (1,0,0)`, `right = (0,0,1)`, `up = (0,1,0)` whose triple
product is `-1`. -/
theorem C5_counterexample :
    ¬ det3 (place demoLine 1).2.1 (place demoLine 1).2.2.1
        (place demoLine 1).2.2.2 = 1 := by
  rw [place_eq demoLine 1 (by norm_num [demoLine])]
  dsimp only
  rw [demoLine_placeDiff, demoLine_forward, demoLine_cross, demoLine_right]
  norm_num [det3, dot3, cross3]

/-- Witness for the amended C5 at `demoLine`, index `1`. -/
theorem C5_frame_witness :
    3 ≤ demoLine.length ∧
    placeDiff demoLine 1 ≠ V3.zero ℝ ∧
    cross3 (normalize3 (placeDiff demoLine 1)) worldUp ≠ V3.zero ℝ ∧
    ((place demoLine 1).1 = demoLine.getD (1 % demoLine.length) (V3.zero ℝ) ∧
     norm3 (place demoLine 1).2.1 = 1 ∧
     norm3 (place demoLine 1).2.2.1 = 1 ∧
     norm3 (place demoLine 1).2.2.2 = 1 ∧
     dot3 (place demoLine 1).2.1 (place demoLine 1).2.2.1 = 0 ∧
     dot3 (place demoLine 1).2.1 (place demoLine 1).2.2.2 = 0 ∧
     dot3 (place demoLine 1).2.2.1 (place demoLine 1).2.2.2 = 0 ∧
     (place demoLine 1).2.2.2 =
       cross3 (place demoLine 1).2.2.1 (place demoLine 1).2.1 ∧
     det3 (place demoLine 1).2.1 (place demoLine 1).2.2.1
       (place demoLine 1).2.2.2 = -1) := by
  have hd : placeDiff demoLine 1 ≠ V3.zero ℝ := by
    rw [demoLine_placeDiff]
    norm_num [V3.zero, V3.mk.injEq]
  have hpar : cross3 (normalize3 (placeDiff demoLine 1)) worldUp ≠ V3.zero ℝ := by
    rw [demoLine_placeDiff, demoLine_forward, demoLine_cross]
    norm_num [V3.zero, V3.mk.injEq]
  exact ⟨by norm_num [demoLine], hd, hpar,
    C5_frame_orthonormal_left_handed demoLine 1 (by norm_num [demoLine]) hd hpar⟩

-- ===========================================================================
-- Model-matrix composition for the animated object
-- (src/unnamed/part_001, 1070-1092)
-- ===========================================================================

/-- Action of the rotation matrix whose columns are `right`, `upAxis`,
`forward` (source lines 1071-1074): `p ↦ p.x·right + p.y·up + p.z·forward`. -/
def applyBasis (r u f p : V3 ℝ) : V3 ℝ :=
  ⟨p.x * r.x + p.y * u.x + p.z * f.x,
   p.x * r.y + p.y * u.y + p.z * f.y,
   p.x * r.z + p.y * u.z + p.z * f.z⟩

/-- Action of `glm::translate(mat4(1), c)` on a point. -/
def translateP (c p : V3 ℝ) : V3 ℝ := c + p

/-- Action of `glm::scale(mat4(1), s)` on a point (componentwise). -/
def scaleP (s p : V3 ℝ) : V3 ℝ := ⟨s.x * p.x, s.y * p.y, s.z * p.z⟩

/-- Action of `glm::rotate(·, a, vec3(1,0,0))` (rotation about the x-axis). -/
noncomputable def rotXP (a : ℝ) (p : V3 ℝ) : V3 ℝ :=
  ⟨p.x, Real.cos a * p.y - Real.sin a * p.z, Real.sin a * p.y + Real.cos a * p.z⟩

/-- Action of `glm::rotate(·, a, vec3(0,1,0))` (rotation about the y-axis). -/
noncomputable def rotYP (a : ℝ) (p : V3 ℝ) : V3 ℝ :=
  ⟨Real.cos a * p.x + Real.sin a * p.z, p.y,
   -(Real.sin a) * p.x + Real.cos a * p.z⟩

/-- Action of `glm::rotate(·, a, vec3(0,0,1))` (rotation about the z-axis). -/
noncomputable def rotZP (a : ℝ) (p : V3 ℝ) : V3 ℝ :=
  ⟨Real.cos a * p.x - Real.sin a * p.y, Real.sin a * p.x + Real.cos a * p.y, p.z⟩

/-- The model transform the source composes for the object named `"Carro"`,
as an action on points.  Lines 1078-1080 build `translate(C) * rot * scale`;
the shared tail (lines 1088-1092) then right-multiplies the per-object Euler
rotations `Rx(radians angle.x) · Ry(radians angle.y) · Rz(radians angle.z)`
AND `scale` a second time, for every object including the car.  Applied to a
point, the rightmost factor acts first. -/
noncomputable def carroTransform (C r u f scale angle p : V3 ℝ) : V3 ℝ :=
  translateP C (applyBasis r u f (scaleP scale
    (rotXP (radians angle.x) (rotYP (radians angle.y)
      (rotZP (radians angle.z) (scaleP scale p))))))

/-- Claim C6's transform: exactly `T · R · S`, the scale applied first and
exactly once (spec-side transcription). -/
def claimCarroTransform (C r u f scale p : V3 ℝ) : V3 ℝ :=
  translateP C (applyBasis r u f (scaleP scale p))

-- ===========================================================================
-- Claim C6
-- ===========================================================================

/-- **C6 (code bug)**: the composed model transform for the animated car is
NOT `T · R · S`.  After the Carro branch builds `T · R · S`, the shared tail
of the draw loop — whose own comment says it is meant for static objects —
applies the Euler angle rotations and the object's scale a second time, so
the car is transformed by `T · R · S · Rx · Ry · Rz · S`.  At the failing
input (identity frame at the origin, the scene file's car scale `0.5` and
angles `0`, point `(1,1,1)`) the code maps the point to `(1/4,1/4,1/4)`
— scale applied twice — while the claimed `T · R · S` gives
`(1/2,1/2,1/2)`. -/
theorem C6_scale_applied_twice :
    carroTransform ⟨0, 0, 0⟩ ⟨1, 0, 0⟩ ⟨0, 1, 0⟩ ⟨0, 0, 1⟩
        ⟨1/2, 1/2, 1/2⟩ ⟨0, 0, 0⟩ ⟨1, 1, 1⟩ = ⟨1/4, 1/4, 1/4⟩ ∧
    claimCarroTransform ⟨0, 0, 0⟩ ⟨1, 0, 0⟩ ⟨0, 1, 0⟩ ⟨0, 0, 1⟩
        ⟨1/2, 1/2, 1/2⟩ ⟨1, 1, 1⟩ = ⟨1/2, 1/2, 1/2⟩ ∧
    carroTransform ⟨0, 0, 0⟩ ⟨1, 0, 0⟩ ⟨0, 1, 0⟩ ⟨0, 0, 1⟩
        ⟨1/2, 1/2, 1/2⟩ ⟨0, 0, 0⟩ ⟨1, 1, 1⟩ ≠
      claimCarroTransform ⟨0, 0, 0⟩ ⟨1, 0, 0⟩ ⟨0, 1, 0⟩ ⟨0, 0, 1⟩
        ⟨1/2, 1/2, 1/2⟩ ⟨1, 1, 1⟩ := by
  have hrad : radians 0 = 0 := by
    simp [radians]
  refine ⟨?_, ?_, ?_⟩ <;>
    norm_num [carroTransform, claimCarroTransform, translateP, applyBasis,
      scaleP, rotXP, rotYP, rotZP, hrad, Real.cos_zero, Real.sin_zero,
      V3.mk.injEq]

-- ===========================================================================
-- AnimationClock: accumulator and index stepping of `main`
-- (src/unnamed/part_001, 777, 965, 1140-1145)
-- ===========================================================================

/-- `STEP_TIME = 1.0f / 30.0f` (source line 777). -/
def STEP_TIME : ℚ := 1 / 30

/-- `{animationIndex, animAccumulator}` (source lines 747, 776). -/
structure AnimationState where
  index : ℕ
  accumulator : ℚ
  deriving DecidableEq

/-- The drain loop (source lines 1141-1144):
`while (acc >= STEP_TIME) { index = (index + 1) % len; acc -= STEP_TIME; }`. -/
def drainSteps (index : ℕ) (acc : ℚ) (len : ℕ) : ℕ × ℚ :=
  if h : STEP_TIME ≤ acc then drainSteps ((index + 1) % len) (acc - STEP_TIME) len
  else (index, acc)
  termination_by ⌊acc / STEP_TIME⌋.toNat
  decreasing_by
    have hs : (0 : ℚ) < STEP_TIME := by norm_num [STEP_TIME]
    have h1 : (1 : ℚ) ≤ acc / STEP_TIME := by
      rw [le_div_iff hs]
      linarith
    have h2 : (1 : ℤ) ≤ ⌊acc / STEP_TIME⌋ := by
      exact_mod_cast Int.le_floor.mpr (by exact_mod_cast h1)
    have h3 : ⌊(acc - STEP_TIME) / STEP_TIME⌋ = ⌊acc / STEP_TIME⌋ - 1 := by
      have hq : (acc - STEP_TIME) / STEP_TIME = acc / STEP_TIME - 1 := by
        field_simp
      rw [hq]
      exact_mod_cast Int.floor_sub_int (acc / STEP_TIME) 1
    omega

/-- One frame's animation update: the accumulator gains `deltaTime`
(source line 965, executed unconditionally every frame) and then, when the
animation-point list is non-empty, the drain loop advances the index at the
fixed rate (source lines 1140-1145; the `while` is skipped when the list is
empty, but the accumulator has already been incremented). -/
def advance (state : AnimationState) (deltaTime : ℚ) (loopLength : ℕ) :
    AnimationState :=
  let acc := state.accumulator + deltaTime
  if loopLength = 0 then ⟨state.index, acc⟩
  else
    let r := drainSteps state.index acc loopLength
    ⟨r.1, r.2⟩

/-- Characterization of the drain loop: it subtracts `STEP_TIME` some `k`
times, stepping the index `k` times modulo `len`, until the accumulator is
below `STEP_TIME`. -/
lemma drainSteps_spec (len : ℕ) (hlen : 0 < len) :
    ∀ n index acc, index < len → ⌊acc / STEP_TIME⌋.toNat = n →
      ∃ k : ℕ, drainSteps index acc len = ((index + k) % len, acc - k * STEP_TIME) ∧
        acc - k * STEP_TIME < STEP_TIME := by
  have hs : (0 : ℚ) < STEP_TIME := by norm_num [STEP_TIME]
  intro n
  induction n using Nat.strong_induction_on with
  | _ n ih =>
    intro index acc hidx hn
    by_cases hge : STEP_TIME ≤ acc
    · have h1 : (1 : ℚ) ≤ acc / STEP_TIME := by
        rw [le_div_iff hs]
        linarith
      have h2 : (1 : ℤ) ≤ ⌊acc / STEP_TIME⌋ := by
        exact_mod_cast Int.le_floor.mpr (by exact_mod_cast h1)
      have h3 : ⌊(acc - STEP_TIME) / STEP_TIME⌋ = ⌊acc / STEP_TIME⌋ - 1 := by
        have hq : (acc - STEP_TIME) / STEP_TIME = acc / STEP_TIME - 1 := by
          field_simp
        rw [hq]
        exact_mod_cast Int.floor_sub_int (acc / STEP_TIME) 1
      have hlt : (⌊(acc - STEP_TIME) / STEP_TIME⌋).toNat < n := by omega
      obtain ⟨k, hk, hksmall⟩ := ih _ hlt ((index + 1) % len) (acc - STEP_TIME)
        (Nat.mod_lt _ hlen) rfl
      refine ⟨k + 1, ?_, ?_⟩
      · rw [drainSteps, dif_pos hge, hk, Nat.mod_add_mod]
        have harith : acc - STEP_TIME - (k : ℚ) * STEP_TIME =
            acc - ((k : ℕ) + 1 : ℕ) * STEP_TIME := by
          push_cast
          ring
        rw [Nat.add_assoc, harith, Nat.add_comm 1 k]
      · have harith : acc - STEP_TIME - (k : ℚ) * STEP_TIME =
            acc - ((k : ℕ) + 1 : ℕ) * STEP_TIME := by
          push_cast
          ring
        rw [← harith]
        exact hksmall
    · refine ⟨0, ?_, ?_⟩
      · rw [drainSteps, dif_neg hge, Nat.add_zero, Nat.mod_eq_of_lt hidx]
        norm_num
      · push_neg at hge
        norm_num
        linarith

-- ===========================================================================
-- Claim C7
-- ===========================================================================

/-- **C7 (amended)**: one frame's update adds `deltaTime` to the accumulator
and then, while the accumulator is `≥ STEP_TIME = 1/30`, steps the index
modulo `loopLength` and subtracts `STEP_TIME` (possibly several times); when
`loopLength = 0` the index is untouched and nothing is subtracted, but the
accumulator still gains `deltaTime` (the increment happens unconditionally
every frame, so the update is NOT a strict no-op); from index 0, accumulator
0 with `loopLength = 5`, five calls with `deltaTime = 1/30` yield the index
values 1, 2, 3, 4, 0. -/
theorem C7_fixed_step_advance :
    (∀ (s : AnimationState) (dt : ℚ),
      advance s dt 0 = ⟨s.index, s.accumulator + dt⟩) ∧
    (∀ (s : AnimationState) (dt : ℚ) (len : ℕ), 0 < len → s.index < len →
      ∃ k : ℕ, advance s dt len =
          ⟨(s.index + k) % len, s.accumulator + dt - k * STEP_TIME⟩ ∧
        (advance s dt len).accumulator < STEP_TIME) ∧
    (advance ⟨0, 0⟩ (1/30) 5 = ⟨1, 0⟩ ∧ advance ⟨1, 0⟩ (1/30) 5 = ⟨2, 0⟩ ∧
     advance ⟨2, 0⟩ (1/30) 5 = ⟨3, 0⟩ ∧ advance ⟨3, 0⟩ (1/30) 5 = ⟨4, 0⟩ ∧
     advance ⟨4, 0⟩ (1/30) 5 = ⟨0, 0⟩) := by
  refine ⟨?_, ?_, ?_⟩
  · intro s dt
    simp [advance]
  · intro s dt len hlen hidx
    obtain ⟨k, hk, hlt⟩ := drainSteps_spec len hlen _ s.index
      (s.accumulator + dt) hidx rfl
    have hne : ¬ len = 0 := by omega
    have hadv : advance s dt len =
        ⟨(s.index + k) % len, s.accumulator + dt - k * STEP_TIME⟩ := by
      simp only [advance, if_neg hne]
      rw [hk]
    exact ⟨k, hadv, by rw [hadv]; exact hlt⟩
  · have hstep : ∀ i : ℕ, advance ⟨i, 0⟩ (1/30) 5 = ⟨(i + 1) % 5, 0⟩ := by
      intro i
      have h1 : drainSteps i (0 + 1/30) 5 = ((i + 1) % 5, 0) := by
        rw [drainSteps, dif_pos (by norm_num [STEP_TIME])]
        rw [drainSteps, dif_neg (by norm_num [STEP_TIME])]
        norm_num [STEP_TIME, Prod.mk.injEq]
      simp only [advance, if_neg (by norm_num : ¬ (5 = 0))]
      rw [h1]
    have h0 := hstep 0
    have h1 := hstep 1
    have h2 := hstep 2
    have h3 := hstep 3
    have h4 := hstep 4
    norm_num at h0 h1 h2 h3 h4
    exact ⟨h0, h1, h2, h3, h4⟩

/-- **C7 counterexample**: with `loopLength = 0` the update is not a no-op —
the accumulator still gains `deltaTime` (the increment at source line 965 is
unconditional). -/
theorem C7_counterexample : advance ⟨0, 0⟩ 1 0 ≠ (⟨0, 0⟩ : AnimationState) := by
  simp [advance, AnimationState.mk.injEq]

/-- Witness for the amended C7 at state `{index 2, accumulator 1/20}`,
`deltaTime = 1/30`, `loopLength = 5`. -/
theorem C7_fixed_step_advance_witness :
    0 < 5 ∧ (⟨2, 1/20⟩ : AnimationState).index < 5 ∧
    ∃ k : ℕ, advance ⟨2, 1/20⟩ (1/30) 5 =
        ⟨((⟨2, 1/20⟩ : AnimationState).index + k) % 5,
         (⟨2, 1/20⟩ : AnimationState).accumulator + 1/30 - k * STEP_TIME⟩ ∧
      (advance ⟨2, 1/20⟩ (1/30) 5).accumulator < STEP_TIME := by
  refine ⟨by norm_num, by norm_num, ?_⟩
  exact C7_fixed_step_advance.2.1 ⟨2, 1/20⟩ (1/30) 5 (by norm_num) (by norm_num)

-- ===========================================================================
-- `exportAnimationPoints` (src/unnamed/part_001, 1552-1569)
-- ===========================================================================

/-- Embedding of `exportAnimationPoints`: the persisted file is modelled as
the list of lines, one line per input point in input order, a line being the
ordered triple of values written: `p.x`, then `p.z` (the editor's height),
then `p.y` (source lines 1559-1567). -/
def exportAnimationPoints (points : List (V3 ℚ)) : List (ℚ × ℚ × ℚ) :=
  points.map (fun p => (p.x, p.z, p.y))

-- ===========================================================================
-- Claim C10
-- ===========================================================================

/-- **C10**: the export writes exactly one line per point, in input order,
and line `i` carries the `i`-th point's coordinates in the order `x, z, y` —
the second and third components swapped, so the editor's height (stored in
`z`) is the second column of the file. -/
theorem C10_export_line_order (points : List (V3 ℚ)) :
    (exportAnimationPoints points).length = points.length ∧
    ∀ i, i < points.length →
      (exportAnimationPoints points).getD i (0, 0, 0) =
        ((points.getD i (V3.zero ℚ)).x, (points.getD i (V3.zero ℚ)).z,
         (points.getD i (V3.zero ℚ)).y) := by
  refine ⟨List.length_map points _, ?_⟩
  intro i hi
  have hsome : points[i]? = some points[i] := List.getElem?_eq_getElem hi
  simp [exportAnimationPoints, List.getD_eq_getElem?_getD, List.getElem?_map, hsome]

/-- Witness for C10 at the single point `(1, 2, 3)`: the line reads `1 3 2`. -/
theorem C10_export_line_order_witness :
    0 < ([⟨1, 2, 3⟩] : List (V3 ℚ)).length ∧
    (exportAnimationPoints [⟨1, 2, 3⟩]).getD 0 (0, 0, 0) = (1, 3, 2) := by
  refine ⟨by norm_num, ?_⟩
  have h := (C10_export_line_order [⟨1, 2, 3⟩]).2 0 (by norm_num)
  simpa using h
